import Mathlib

/-!
Verification of the a-h/gemini Gemini protocol library.

The Go source is shallowly embedded: Go byte strings become `List Nat`
(each element a byte value), fallible results become `Option`/`Except`,
and the per-connection response writer becomes an explicit state record.
An `io.Reader` is modelled as the list of results its successive
one-byte `Read` calls produce; reading past the end of the list yields
the `io.EOF` error, modelled as the string "EOF".
-/

namespace Gemini

/-- Byte string of an ASCII Lean string literal. Go strings are byte
slices; every string constant used by the library is ASCII, so the
byte value of each character is its code point. -/
def strBytes (s : String) : List Nat := s.toList.map (fun c => c.toNat)

/-- One result of a Go `Read` call on a one-byte buffer: a byte, or an
error (the string "EOF" plays the role of `io.EOF`). -/
abbrev ReadEv := Except String Nat

/-- A pure byte stream: successive reads yield the bytes in order, and
reads past the end yield EOF. -/
def bytesToStream (l : List Nat) : List ReadEv := l.map Except.ok

/-- Loop body of `readUntilCrLf` (client.go lines 79-98). `fuel` is the
number of loop iterations remaining (`maxLength - i`), `previousIsCr`
and `output` are the loop variables. -/
def readUntilCrLfGo : List ReadEv → Nat → Bool → List Nat → List Nat × Bool × Option String
  | _, 0, _, output => (output, false, none)
  | [], _ + 1, _, output => (output, false, some "EOF")
  | Except.error e :: _, _ + 1, _, output => (output, false, some e)
  | Except.ok current :: rest, n + 1, previousIsCr, output =>
    if current = 10 ∧ previousIsCr = true then (output, true, none)
    else readUntilCrLfGo rest n (current == 13) (output ++ [current])

/-- `readUntilCrLf` (client.go): read one byte at a time until the first
LF whose previous byte was CR, reading at most `maxLength` bytes. -/
def readUntilCrLf (src : List ReadEv) (maxLength : Nat) : List Nat × Bool × Option String :=
  readUntilCrLfGo src maxLength false []

/-- True when the byte list contains a CR byte immediately followed by
an LF byte. -/
def hasCrLf : List Nat → Bool
  | [] => false
  | b :: rest => (b == 13 && rest.head? == some 10) || hasCrLf rest

/-- The value `previousIsCr` holds after the loop has consumed the bytes
of `l`, having started with value `prevCr`. -/
def lastIsCr : List Nat → Bool → Bool
  | [], prevCr => prevCr
  | b :: bs, _ => lastIsCr bs (b == 13)

/-- Processing a CRLF-free prefix of the stream appends it to the output
and consumes the matching amount of fuel. -/
theorem readGo_chunk (l : List Nat) (rest : List ReadEv) (n : Nat) (prevCr : Bool)
    (out : List Nat) (hcrlf : hasCrLf l = false)
    (hhead : ¬(prevCr = true ∧ l.head? = some 10)) (hn : l.length ≤ n) :
    readUntilCrLfGo (l.map Except.ok ++ rest) n prevCr out
      = readUntilCrLfGo rest (n - l.length) (lastIsCr l prevCr) (out ++ l) := by
  induction l generalizing n prevCr out with
  | nil => simp [lastIsCr]
  | cons b bs ih =>
    match n, hn with
    | m + 1, hn =>
      simp only [hasCrLf, Bool.or_eq_false_iff, Bool.and_eq_false_iff] at hcrlf
      have hif : ¬(b = 10 ∧ prevCr = true) := by
        intro hc
        exact hhead ⟨hc.2, by simp [hc.1]⟩
      have hih : ¬((b == 13) = true ∧ bs.head? = some 10) := by
        intro hc
        rcases hcrlf.1 with h1 | h1
        · rw [hc.1] at h1
          exact absurd h1 (by decide)
        · rw [hc.2] at h1
          simp at h1
      have step : readUntilCrLfGo (List.map Except.ok (b :: bs) ++ rest) (m + 1) prevCr out
          = readUntilCrLfGo (List.map Except.ok bs ++ rest) m (b == 13) (out ++ [b]) := by
        simp only [List.map_cons, List.cons_append, readUntilCrLfGo, if_neg hif,
          List.append_eq]
      rw [step, ih m (b == 13) (out ++ [b]) hcrlf.2 hih (Nat.le_of_succ_le_succ hn)]
      simp only [lastIsCr, List.length_cons, Nat.succ_sub_succ, List.append_assoc,
        List.singleton_append]

/-- Reading a stream that starts with a CRLF-free chunk `l` followed by
CRLF succeeds: the returned bytes are `l` plus the CR (the Go loop
appends the CR before it sees the LF). -/
theorem readUntilCrLf_found (l : List Nat) (rest : List ReadEv) (n : Nat)
    (hcrlf : hasCrLf l = false) (hn : l.length + 2 ≤ n) :
    readUntilCrLf (l.map Except.ok ++ Except.ok 13 :: Except.ok 10 :: rest) n
      = (l ++ [13], true, none) := by
  unfold readUntilCrLf
  rw [readGo_chunk l (Except.ok 13 :: Except.ok 10 :: rest) n false [] hcrlf (by simp)
    (by omega)]
  have h2 : n - l.length = (n - l.length - 2) + 1 + 1 := by omega
  rw [h2]
  simp only [readUntilCrLfGo]
  rw [if_neg (by simp)]
  simp [readUntilCrLfGo]

/-- Reading a stream whose first `n` events are bytes free of any CRLF
terminator exhausts the `maxLength = n` budget: the first `n` bytes are
returned with `ok = false` and no error. -/
theorem readUntilCrLf_cap (l : List Nat) (rest : List ReadEv) (n : Nat)
    (hn : n ≤ l.length) (hcrlf : hasCrLf (l.take n) = false) :
    readUntilCrLf (l.map Except.ok ++ rest) n = (l.take n, false, none) := by
  unfold readUntilCrLf
  have hsplit : l.map Except.ok ++ rest
      = (l.take n).map Except.ok ++ ((l.drop n).map Except.ok ++ rest) := by
    rw [← List.append_assoc, ← List.map_append, List.take_append_drop]
  rw [hsplit, readGo_chunk (l.take n) _ n false [] hcrlf (by simp)
    (by simp [List.length_take])]
  have hlen : (l.take n).length = n := by simp [List.length_take]; omega
  rw [hlen]
  simp [readUntilCrLfGo]

/-- Reading a stream that yields a CRLF-free chunk `l` and then an I/O
error returns the bytes read so far together with that error. -/
theorem readUntilCrLf_err (l : List Nat) (e : String) (rest : List ReadEv) (n : Nat)
    (hcrlf : hasCrLf l = false) (hn : l.length < n) :
    readUntilCrLf (l.map Except.ok ++ Except.error e :: rest) n = (l, false, some e) := by
  unfold readUntilCrLf
  rw [readGo_chunk l (Except.error e :: rest) n false [] hcrlf (by simp) (by omega)]
  have h1 : n - l.length = (n - l.length - 1) + 1 := by omega
  rw [h1]
  simp [readUntilCrLfGo]

/-- Reading a pure byte stream that ends (EOF) before any CRLF returns
the bytes read so far and the EOF error. -/
theorem readUntilCrLf_eof (l : List Nat) (n : Nat)
    (hcrlf : hasCrLf l = false) (hn : l.length < n) :
    readUntilCrLf (bytesToStream l) n = (l, false, some "EOF") := by
  unfold readUntilCrLf bytesToStream
  rw [show l.map Except.ok = l.map Except.ok ++ ([] : List ReadEv) by simp]
  rw [readGo_chunk l [] n false [] hcrlf (by simp) (by omega)]
  have h1 : n - l.length = (n - l.length - 1) + 1 := by omega
  rw [h1]
  simp [readUntilCrLfGo]

/-- On a pure byte stream the only possible read error is EOF. -/
theorem readGo_pure_err (src : List Nat) (n : Nat) (prevCr : Bool) (out : List Nat) :
    (readUntilCrLfGo (bytesToStream src) n prevCr out).2.2 = none ∨
      (readUntilCrLfGo (bytesToStream src) n prevCr out).2.2 = some "EOF" := by
  induction src generalizing n prevCr out with
  | nil =>
    cases n with
    | zero => simp [bytesToStream, readUntilCrLfGo]
    | succ m => simp [bytesToStream, readUntilCrLfGo]
  | cons b bs ih =>
    cases n with
    | zero => simp [bytesToStream, readUntilCrLfGo]
    | succ m =>
      simp only [bytesToStream, List.map_cons, readUntilCrLfGo]
      by_cases hc : b = 10 ∧ prevCr = true
      · rw [if_pos hc]
        simp
      · rw [if_neg hc]
        exact ih m (b == 13) (out ++ [b])

/-- `isValidCode` (client.go): two bytes, the first an ASCII digit 1-6,
the second an ASCII digit 0-9. -/
def isValidCode : List Nat → Bool
  | [c0, c1] => (49 ≤ c0 && c0 ≤ 54) && (48 ≤ c1 && c1 ≤ 57)
  | _ => false

/-- `isValidMeta` (client.go): at most 1024 bytes. -/
def isValidMeta (m : List Nat) : Bool := m.length ≤ 1024

/-- `isSuccessCode` (server.go): two bytes, the first the ASCII digit 2. -/
def isSuccessCode : List Nat → Bool
  | [c0, _] => c0 == 50
  | _ => false

/-- `DefaultMIMEType` (server.go), as bytes. -/
def defaultMIMEType : List Nat := strBytes "text/gemini; charset=utf-8"

/-- `writeHeaderToWriter` (server.go lines 367-377): the bytes the header
write emits: default meta substitution for success codes, truncation of
the meta to 1024 bytes, then CODE SPACE META CR LF. -/
def writeHeaderToWriter (code meta : List Nat) : List Nat :=
  let meta1 := if meta = [] ∧ isSuccessCode code = true then defaultMIMEType else meta
  let meta2 := meta1.take 1024
  code ++ [32] ++ meta2 ++ [13, 10]

/-- `strings.TrimRight(s, "\r\n")`: remove all trailing CR and LF bytes. -/
def trimRightCrLf (l : List Nat) : List Nat :=
  ((l.reverse.dropWhile (fun b => b == 13 || b == 10))).reverse

/-- `strings.SplitN(s, " ", 2)`: `none` when there is no space (one part),
otherwise the part before the first space and everything after it. -/
def splitOnFirstSpace : List Nat → Option (List Nat × List Nat)
  | [] => none
  | b :: rest =>
    if b = 32 then some ([], rest)
    else
      match splitOnFirstSpace rest with
      | none => none
      | some (pre, post) => some (b :: pre, post)

/-- `Header` (client.go): response status code and meta. -/
structure Header where
  Code : List Nat
  Meta : List Nat
deriving DecidableEq, Repr

/-- The errors `readHeader` (client.go) can return. -/
inductive HeaderErr where
  | readFailed (e : String)
  | crLfNotFoundWithinMaxLength
  | invalidStatus
  | invalidCode
  | invalidMeta
deriving DecidableEq, Repr

/-- `readHeader` (client.go lines 50-77): read a status line of at most
1029 bytes, trim trailing CR/LF, split on the first space into code and
meta, and validate both. -/
def readHeader (src : List ReadEv) : Except HeaderErr Header :=
  let t := readUntilCrLf src 1029
  match t.2.2 with
  | some e => Except.error (HeaderErr.readFailed e)
  | none =>
    if t.2.1 = false then Except.error HeaderErr.crLfNotFoundWithinMaxLength
    else
      match splitOnFirstSpace (trimRightCrLf t.1) with
      | none => Except.error HeaderErr.invalidStatus
      | some (c, m) =>
        if isValidCode c = false then Except.error HeaderErr.invalidCode
        else if isValidMeta m = false then Except.error HeaderErr.invalidMeta
        else Except.ok { Code := c, Meta := m }

theorem trimRightCrLf_append13 (l : List Nat) :
    trimRightCrLf (l ++ [13]) = trimRightCrLf l := by
  simp [trimRightCrLf, List.dropWhile]

theorem trimRightCrLf_eq_self (l : List Nat)
    (h : ∀ b, l.getLast? = some b → b ≠ 13 ∧ b ≠ 10) :
    trimRightCrLf l = l := by
  unfold trimRightCrLf
  cases hr : l.reverse with
  | nil =>
    simp at hr
    simp [hr]
  | cons b bs =>
    have hb : l.getLast? = some b := by
      rw [← List.head?_reverse, hr]
      rfl
    have := h b hb
    rw [List.dropWhile_cons_of_neg (by simp [this.1, this.2])]
    rw [← hr, List.reverse_reverse]

theorem splitOnFirstSpace_at (c0 c1 : Nat) (m : List Nat)
    (h0 : c0 ≠ 32) (h1 : c1 ≠ 32) :
    splitOnFirstSpace (c0 :: c1 :: 32 :: m) = some ([c0, c1], m) := by
  simp [splitOnFirstSpace, h0, h1]

theorem take_1024_of_le (l : List Nat) (h : l.length ≤ 1024) : l.take 1024 = l :=
  List.take_of_length_le h

/-- Claim C8 (corrected): `readUntilCrLf` reads one byte at a time and
succeeds exactly on the first LF whose previous byte was CR, but on
success the returned bytes are the accumulated bytes INCLUDING the
terminating CR (only the LF is excluded), because the Go loop appends
the CR before it can see the LF. It returns `ok = false` when the byte
budget runs out first, and on an I/O error it returns the bytes read so
far together with that error. -/
theorem readUntilCrLf_behaviour :
    (∀ (l : List Nat) (rest : List ReadEv) (n : Nat),
        hasCrLf l = false → l.length + 2 ≤ n →
        readUntilCrLf (l.map Except.ok ++ Except.ok 13 :: Except.ok 10 :: rest) n
          = (l ++ [13], true, none)) ∧
    (∀ (l : List Nat) (rest : List ReadEv) (n : Nat),
        n ≤ l.length → hasCrLf (l.take n) = false →
        readUntilCrLf (l.map Except.ok ++ rest) n = (l.take n, false, none)) ∧
    (∀ (l : List Nat) (e : String) (rest : List ReadEv) (n : Nat),
        hasCrLf l = false → l.length < n →
        readUntilCrLf (l.map Except.ok ++ Except.error e :: rest) n = (l, false, some e)) :=
  ⟨readUntilCrLf_found, readUntilCrLf_cap, readUntilCrLf_err⟩

/-- Witness for the corrected C8 theorem at concrete inputs: the stream
"AB\r\nflotsam" terminates with output "AB\r"; the stream "ABCD" capped
at 3 bytes yields "ABC" with ok=false; the stream "A" followed by an
I/O error yields "A" and the error. -/
theorem readUntilCrLf_behaviour_witness :
    readUntilCrLf ([65, 66].map Except.ok ++ Except.ok 13 :: Except.ok 10 :: []) 1026
      = ([65, 66, 13], true, none) ∧
    readUntilCrLf ([65, 66, 67, 68].map Except.ok ++ []) 3 = ([65, 66, 67], false, none) ∧
    readUntilCrLf ([65].map Except.ok ++ Except.error "boom" :: []) 1026
      = ([65], false, some "boom") :=
  ⟨readUntilCrLf_behaviour.1 [65, 66] [] 1026 (by decide) (by decide),
   by
    have h := readUntilCrLf_behaviour.2.1 [65, 66, 67, 68] [] 3 (by decide) (by decide)
    simpa using h,
   readUntilCrLf_behaviour.2.2 [65] "boom" [] 1026 (by decide) (by decide)⟩

/-- Counterexample to claim C8 as stated: on the stream "AB\r\n" the
function succeeds but the returned bytes are "AB\r", not "AB" — the
terminating CR is included in the output. -/
theorem readUntilCrLf_includes_cr_counterexample :
    readUntilCrLf (bytesToStream [65, 66, 13, 10]) 1026 = ([65, 66, 13], true, none) ∧
    (readUntilCrLf (bytesToStream [65, 66, 13, 10]) 1026).1 ≠ [65, 66] := by
  exact ⟨by rfl, by decide⟩

/-- Claim C1 (corrected): the header round trip. For a valid two-digit
code and a meta of at most 1024 bytes that contains no CR LF pair and
does not end in CR or LF, writing with `writeHeaderToWriter` and parsing
with `readHeader` returns the same code and meta, except that a success
code with empty meta parses to the default MIME type. (Without the CR/LF
restriction the claim is false, see the counterexample.) -/
theorem readHeader_writeHeader_roundtrip (c0 c1 : Nat) (meta : List Nat)
    (hcode : isValidCode [c0, c1] = true)
    (hlen : meta.length ≤ 1024)
    (hcrlf : hasCrLf meta = false)
    (hlast : ∀ b, meta.getLast? = some b → b ≠ 13 ∧ b ≠ 10) :
    readHeader (bytesToStream (writeHeaderToWriter [c0, c1] meta)) =
      Except.ok { Code := [c0, c1],
                  Meta := if meta = [] ∧ isSuccessCode [c0, c1] = true
                          then defaultMIMEType else meta } := by
  simp only [isValidCode, Bool.and_eq_true, decide_eq_true_eq] at hcode
  obtain ⟨⟨h49, h54⟩, h48, h57⟩ := hcode
  set meta1 := if meta = [] ∧ isSuccessCode [c0, c1] = true then defaultMIMEType else meta
    with hmeta1
  have hm1len : meta1.length ≤ 1024 := by
    rw [hmeta1]
    split
    · decide
    · exact hlen
  have hm1crlf : hasCrLf meta1 = false := by
    rw [hmeta1]
    split
    · decide
    · exact hcrlf
  have hm1last : ∀ b, meta1.getLast? = some b → b ≠ 13 ∧ b ≠ 10 := by
    rw [hmeta1]
    split
    · intro b hb
      have hd : defaultMIMEType.getLast? = some 56 := by decide
      rw [hd] at hb
      cases hb
      decide
    · exact hlast
  have hwrite : writeHeaderToWriter [c0, c1] meta
      = (c0 :: c1 :: 32 :: meta1) ++ [13, 10] := by
    simp only [writeHeaderToWriter]
    rw [← hmeta1, take_1024_of_le meta1 hm1len]
    simp
  have hne10 : ¬ c1 = 10 := by omega
  have hl : hasCrLf (c0 :: c1 :: 32 :: meta1) = false := by
    simp [hasCrLf, hne10, hm1crlf, show ¬ c1 = 13 by omega, show (32:Nat) ≠ 13 by decide]
  have hread : readUntilCrLf (bytesToStream (writeHeaderToWriter [c0, c1] meta)) 1029
      = ((c0 :: c1 :: 32 :: meta1) ++ [13], true, none) := by
    rw [hwrite]
    unfold bytesToStream
    have hmap : List.map Except.ok ((c0 :: c1 :: 32 :: meta1) ++ [13, 10])
        = List.map Except.ok (c0 :: c1 :: 32 :: meta1)
            ++ Except.ok 13 :: Except.ok 10 :: ([] : List ReadEv) := by
      simp
    rw [hmap]
    exact readUntilCrLf_found _ _ 1029 hl (by simp; omega)
  have htrim : trimRightCrLf ((c0 :: c1 :: 32 :: meta1) ++ [13])
      = c0 :: c1 :: 32 :: meta1 := by
    rw [trimRightCrLf_append13]
    apply trimRightCrLf_eq_self
    intro b hb
    cases hm : meta1 with
    | nil =>
      rw [hm] at hb
      simp [List.getLast?_cons_cons] at hb
      omega
    | cons x xs =>
      rw [hm] at hb
      rw [List.getLast?_cons_cons, List.getLast?_cons_cons] at hb
      exact hm1last b (by rw [hm]; exact hb)
  unfold readHeader
  rw [hread]
  simp only
  rw [htrim, splitOnFirstSpace_at c0 c1 meta1 (by omega) (by omega)]
  simp only [isValidCode, isValidMeta]
  have hvc : ((49 ≤ c0 && c0 ≤ 54) && (48 ≤ c1 && c1 ≤ 57) : Bool) = true := by
    simp [h49, h54, h48, h57]
  rw [hvc]
  simp [hm1len]

/-- Witness for the corrected C1 theorem: a success header with empty
meta round-trips to the default MIME type. -/
theorem readHeader_writeHeader_roundtrip_witness :
    readHeader (bytesToStream (writeHeaderToWriter [50, 48] []))
      = Except.ok { Code := [50, 48], Meta := defaultMIMEType } := by
  have h := readHeader_writeHeader_roundtrip 50 48 [] (by decide) (by decide) (by decide)
    (fun b hb => by simp at hb)
  simpa [isSuccessCode] using h

/-- Counterexample to claim C1 as stated: the meta "\n" (one byte, well
within the 1024 limit) written with the valid non-success code "30" does
not round-trip: the written bytes are "30 \n\r\n" and parsing yields
meta "" instead of "\n", because the reader stops at the CRLF and the
trailing LF of the meta is trimmed away. -/
theorem readHeader_writeHeader_crlf_meta_counterexample :
    isValidCode [51, 48] = true ∧ ([10] : List Nat).length ≤ 1024 ∧
    readHeader (bytesToStream (writeHeaderToWriter [51, 48] [10]))
      = Except.ok { Code := [51, 48], Meta := [] } ∧
    (Except.ok { Code := [51, 48], Meta := [] } : Except HeaderErr Header) ≠
      Except.ok { Code := [51, 48], Meta := [10] } := by
  refine ⟨by decide, by decide, by rfl, ?_⟩
  intro h
  simp at h

/-- Errors of the response writer (server.go). -/
inductive GoError where
  | headerAlreadyWritten
  | cannotWriteBodyWithoutSuccessCode
deriving DecidableEq, Repr

/-- `CodeSuccess` = "20" as bytes. -/
def codeSuccess : List Nat := strBytes "20"

/-- `Writer` (server.go lines 317-323). The underlying `io.Writer` is
modelled as an in-memory buffer `out` that always accepts all bytes, as
in `Record` (client.go) and the test suite. -/
structure Writer where
  Code : List Nat
  out : List Nat
  WrittenHeader : Nat
  WrittenBody : Nat
deriving DecidableEq, Repr

/-- `NewWriter` (server.go): a fresh writer with empty code. -/
def NewWriter : Writer :=
  { Code := [], out := [], WrittenHeader := 0, WrittenBody := 0 }

/-- `Writer.SetHeader` (server.go lines 356-365): refuse when a code has
already been recorded, otherwise record the code and emit the header
line. Returns the error and the updated writer. -/
def Writer.SetHeader (gw : Writer) (code meta : List Nat) : Option GoError × Writer :=
  if gw.Code ≠ [] then (some GoError.headerAlreadyWritten, gw)
  else
    let header := writeHeaderToWriter code meta
    (none, { gw with
      Code := code,
      out := gw.out ++ header,
      WrittenHeader := gw.WrittenHeader + header.length })

/-- `Writer.Write` (server.go lines 334-347): implicitly emit the default
success header when no header has been set, refuse the body when the
code is not a success code, otherwise forward the bytes. Returns
`(n, err)` and the updated writer. -/
def Writer.Write (gw : Writer) (p : List Nat) : (Nat × Option GoError) × Writer :=
  let gw1 :=
    if gw.Code = [] then
      let gw2 := (Writer.SetHeader gw codeSuccess defaultMIMEType).2
      { gw2 with Code := codeSuccess }
    else gw
  if isSuccessCode gw1.Code = false then
    ((0, some GoError.cannotWriteBodyWithoutSuccessCode), gw1)
  else
    ((p.length, none), { gw1 with
      out := gw1.out ++ p,
      WrittenBody := gw1.WrittenBody + p.length })

/-- Claim C2 (confirmed): the header is written at most once. Writing a
header — explicitly via `SetHeader` with a (necessarily non-empty)
two-digit code, or implicitly by a `Write` — leaves the writer with a
non-empty recorded code, and on any writer with a non-empty recorded
code every `SetHeader` call returns `ErrHeaderAlreadyWritten` and leaves
the writer (in particular its emitted bytes) unchanged. -/
theorem setHeader_at_most_once :
    (∀ (gw : Writer) (code meta : List Nat), gw.Code ≠ [] →
        Writer.SetHeader gw code meta = (some GoError.headerAlreadyWritten, gw)) ∧
    (∀ (gw : Writer) (code meta : List Nat), isValidCode code = true →
        ((Writer.SetHeader gw code meta).2).Code ≠ []) ∧
    (∀ (gw : Writer) (p : List Nat), ((Writer.Write gw p).2).Code ≠ []) := by
  refine ⟨?_, ?_, ?_⟩
  · intro gw code meta h
    simp [Writer.SetHeader, h]
  · intro gw code meta hv
    by_cases h : gw.Code = []
    · have hne : code ≠ [] := by
        intro hc
        rw [hc] at hv
        simp [isValidCode] at hv
      simp [Writer.SetHeader, h, hne]
    · simp [Writer.SetHeader, h]
  · intro gw p
    by_cases h : gw.Code = []
    · simp [Writer.Write, Writer.SetHeader, h, codeSuccess, strBytes, isSuccessCode]
    · simp only [Writer.Write, if_neg h]
      by_cases hs : isSuccessCode gw.Code = false
      · simpa [hs]
      · simpa [hs]

/-- Witness for the C2 theorem: after an explicit `SetHeader(51, "")` on
a fresh writer, a second `SetHeader` fails and changes nothing; the code
recorded by that first call and by a plain `Write` is non-empty. -/
theorem setHeader_at_most_once_witness :
    Writer.SetHeader (Writer.SetHeader NewWriter (strBytes "51") []).2 (strBytes "20") []
      = (some GoError.headerAlreadyWritten, (Writer.SetHeader NewWriter (strBytes "51") []).2) ∧
    ((Writer.SetHeader NewWriter (strBytes "51") []).2).Code ≠ [] ∧
    ((Writer.Write NewWriter (strBytes "body")).2).Code ≠ [] :=
  ⟨setHeader_at_most_once.1 _ (strBytes "20") [] (by decide),
   setHeader_at_most_once.2.1 NewWriter (strBytes "51") [] (by decide),
   setHeader_at_most_once.2.2 NewWriter (strBytes "body")⟩

/-- Claim C3 (confirmed): a `Write` on a fresh writer (no `SetHeader`
called) succeeds, and the output is exactly the default success header
"20 text/gemini; charset=utf-8" CR LF followed by the written bytes. -/
theorem write_implicit_success_header (p : List Nat) :
    (Writer.Write NewWriter p).1 = (p.length, none) ∧
    ((Writer.Write NewWriter p).2).out
      = strBytes "20 text/gemini; charset=utf-8" ++ [13, 10] ++ p := by
  constructor
  · rfl
  · simp [Writer.Write, Writer.SetHeader, NewWriter, writeHeaderToWriter, codeSuccess,
      defaultMIMEType, isSuccessCode, strBytes]

/-- Claim C4 (confirmed): once the header is set to a code whose first
byte is not the digit 2, every `Write` returns
`ErrCannotWriteBodyWithoutSuccessCode` with `n = 0` and leaves the
writer — hence its emitted bytes, the header line alone — unchanged. -/
theorem write_after_non_success_header_fails (gw : Writer) (p : List Nat)
    (hne : gw.Code ≠ []) (hns : gw.Code.head? ≠ some 50) :
    Writer.Write gw p = ((0, some GoError.cannotWriteBodyWithoutSuccessCode), gw) := by
  have hs : isSuccessCode gw.Code = false := by
    cases hc : gw.Code with
    | nil => exact absurd hc hne
    | cons b rest =>
      cases rest with
      | nil => simp [isSuccessCode]
      | cons b2 rest2 =>
        cases rest2 with
        | nil =>
          rw [hc] at hns
          simp only [List.head?_cons, ne_eq, Option.some.injEq] at hns
          simp [isSuccessCode, hns]
        | cons b3 rest3 => simp [isSuccessCode]
  simp [Writer.Write, hne, hs]

/-- Witness for the C4 theorem: after `SetHeader(51, "not found")`, a
body write fails and the output stays the "51 not found" header line. -/
theorem write_after_non_success_header_fails_witness :
    Writer.Write (Writer.SetHeader NewWriter (strBytes "51") (strBytes "not found")).2
        (strBytes "body")
      = ((0, some GoError.cannotWriteBodyWithoutSuccessCode),
         (Writer.SetHeader NewWriter (strBytes "51") (strBytes "not found")).2) :=
  write_after_non_success_header_fails _ (strBytes "body") (by decide) (by decide)

/-- The recovery path of `Server.handle` (server.go lines 263-268): when
a handler panics, the deferred function calls
`SetHeader(CodeCGIError, "internal error")` on the connection writer. -/
def handleRecover (w : Writer) : Writer :=
  (Writer.SetHeader w (strBytes "42") (strBytes "internal error")).2

/-- Claim C6 (confirmed): a handler panic is converted into the header
write `SetHeader(42, "internal error")` if and only if no header had
been recorded before the panic; when a header was already recorded the
writer — in particular its emitted bytes — is unchanged. -/
theorem handle_panic_conversion (w : Writer) :
    (w.Code = [] →
      handleRecover w
        = { w with
            Code := strBytes "42",
            out := w.out ++ writeHeaderToWriter (strBytes "42") (strBytes "internal error"),
            WrittenHeader := w.WrittenHeader
              + (writeHeaderToWriter (strBytes "42") (strBytes "internal error")).length }) ∧
    (w.Code ≠ [] → handleRecover w = w) := by
  constructor
  · intro h
    simp [handleRecover, Writer.SetHeader, h]
  · intro h
    simp [handleRecover, Writer.SetHeader, h]

/-- Witness for the C6 theorem: a panic on a fresh writer emits the
"42 internal error" header; a panic after `SetHeader(20, "")` emits
nothing further. -/
theorem handle_panic_conversion_witness :
    handleRecover NewWriter
      = { NewWriter with
          Code := strBytes "42",
          out := NewWriter.out
            ++ writeHeaderToWriter (strBytes "42") (strBytes "internal error"),
          WrittenHeader := NewWriter.WrittenHeader
            + (writeHeaderToWriter (strBytes "42") (strBytes "internal error")).length } ∧
    handleRecover (Writer.SetHeader NewWriter (strBytes "20") []).2
      = (Writer.SetHeader NewWriter (strBytes "20") []).2 :=
  ⟨(handle_panic_conversion NewWriter).1 (by decide),
   (handle_panic_conversion _).2 (by decide)⟩

/-- ASCII white space bytes trimmed by `strings.TrimSpace` (the library
only ever deals with ASCII request lines). -/
def isSpaceByte (b : Nat) : Bool :=
  b == 9 || b == 10 || b == 11 || b == 12 || b == 13 || b == 32

/-- `strings.TrimSpace` restricted to ASCII byte strings. -/
def trimSpace (l : List Nat) : List Nat :=
  ((l.dropWhile isSpaceByte).reverse.dropWhile isSpaceByte).reverse

def errString : Option String → List Nat
  | some s => strBytes s
  | none => []

/-- Result of `Server.parseRequest` (server.go lines 292-315): the
optional parsed request URL, the ok flag, the returned error and the
bytes written back to the connection. -/
structure ParseResult where
  r : Option (List Nat)
  ok : Bool
  err : Option String
  written : List Nat
deriving DecidableEq, Repr

/-- `Server.parseRequest` (server.go lines 292-315). `urlParse` stands
for the Go standard library function `url.Parse`, abstract here; its
`Except.ok` value is the parsed URL. The error string "EOF" plays the
role of `io.EOF`. -/
def parseRequest (urlParse : List Nat → Except String (List Nat))
    (src : List ReadEv) : ParseResult :=
  let t := readUntilCrLf src 1026
  if t.2.2 ≠ none ∧ t.2.2 ≠ some "EOF" then
    { r := none, ok := t.2.1, err := t.2.2,
      written := writeHeaderToWriter (strBytes "59")
        (strBytes "error reading request: " ++ errString t.2.2) }
  else if t.2.1 = false then
    { r := none, ok := false, err := t.2.2,
      written := writeHeaderToWriter (strBytes "59")
        (strBytes "request too long or malformed") }
  else
    match urlParse (trimSpace t.1) with
    | Except.error e =>
      { r := none, ok := false, err := some e,
        written := writeHeaderToWriter (strBytes "59") (strBytes "request malformed") }
    | Except.ok u => { r := some u, ok := true, err := none, written := [] }

/-- The guard of `Server.handle` (server.go lines 249-256): the handler
is reached only when `parseRequest` returned no error and `ok`. -/
def handlerInvoked (p : ParseResult) : Bool :=
  p.err == none && p.ok

/-- Claim C5 (confirmed): on a pure byte stream, when no CRLF is found
within the 1026-byte cap the server answers `59 request too long or
malformed`; when the line is read but `url.Parse` of the whitespace
trimmed line fails it answers `59 request malformed`; in both cases no
request is produced and `Server.handle` never invokes the handler. -/
theorem parseRequest_malformed_59 (urlParse : List Nat → Except String (List Nat))
    (src : List Nat) :
    ((readUntilCrLf (bytesToStream src) 1026).2.1 = false →
      parseRequest urlParse (bytesToStream src)
        = { r := none, ok := false, err := (readUntilCrLf (bytesToStream src) 1026).2.2,
            written := writeHeaderToWriter (strBytes "59")
              (strBytes "request too long or malformed") } ∧
      handlerInvoked (parseRequest urlParse (bytesToStream src)) = false) ∧
    (∀ (line : List Nat) (e : String),
      readUntilCrLf (bytesToStream src) 1026 = (line, true, none) →
      urlParse (trimSpace line) = Except.error e →
      parseRequest urlParse (bytesToStream src)
        = { r := none, ok := false, err := some e,
            written := writeHeaderToWriter (strBytes "59") (strBytes "request malformed") } ∧
      handlerInvoked (parseRequest urlParse (bytesToStream src)) = false) := by
  constructor
  · intro h
    have hbranch : ¬((readUntilCrLf (bytesToStream src) 1026).2.2 ≠ none ∧
        (readUntilCrLf (bytesToStream src) 1026).2.2 ≠ some "EOF") := by
      have hp := readGo_pure_err src 1026 false []
      intro hc
      rcases hp with h1 | h1
      · exact hc.1 h1
      · exact hc.2 h1
    have hres : parseRequest urlParse (bytesToStream src)
        = { r := none, ok := false, err := (readUntilCrLf (bytesToStream src) 1026).2.2,
            written := writeHeaderToWriter (strBytes "59")
              (strBytes "request too long or malformed") } := by
      simp only [parseRequest]
      rw [if_neg hbranch, if_pos h]
    exact ⟨hres, by rw [hres]; simp [handlerInvoked]⟩
  · intro line e hline hurl
    have hres : parseRequest urlParse (bytesToStream src)
        = { r := none, ok := false, err := some e,
            written := writeHeaderToWriter (strBytes "59")
              (strBytes "request malformed") } := by
      simp only [parseRequest]
      rw [hline]
      simp [hurl]
    exact ⟨hres, by rw [hres]; simp [handlerInvoked]⟩

/-- Witness for the C5 theorem: the stream "abc" (no CRLF, then EOF)
draws `59 request too long or malformed`; the stream "x\r\n" with a
URL parser that rejects everything draws `59 request malformed`; in
both runs the handler guard is false. -/
theorem parseRequest_malformed_59_witness :
    (parseRequest (fun _ => Except.error "bad") (bytesToStream (strBytes "abc"))
        = { r := none, ok := false, err := some "EOF",
            written := writeHeaderToWriter (strBytes "59")
              (strBytes "request too long or malformed") } ∧
      handlerInvoked (parseRequest (fun _ => Except.error "bad")
        (bytesToStream (strBytes "abc"))) = false) ∧
    (parseRequest (fun _ => Except.error "bad") (bytesToStream (strBytes "x\r\n"))
        = { r := none, ok := false, err := some "bad",
            written := writeHeaderToWriter (strBytes "59")
              (strBytes "request malformed") } ∧
      handlerInvoked (parseRequest (fun _ => Except.error "bad")
        (bytesToStream (strBytes "x\r\n"))) = false) := by
  constructor
  · have h := (parseRequest_malformed_59 (fun _ => Except.error "bad")
      (strBytes "abc")).1 (by decide)
    have he : (readUntilCrLf (bytesToStream (strBytes "abc")) 1026).2.2 = some "EOF" := by
      decide
    rw [he] at h
    exact h
  · exact (parseRequest_malformed_59 (fun _ => Except.error "bad") (strBytes "x\r\n")).2
      [120, 13] "bad" (by decide) (by rfl)

/-- Lower-case an ASCII letter byte. -/
def asciiLower (b : Nat) : Nat := if 65 ≤ b ∧ b ≤ 90 then b + 32 else b

/-- `strings.EqualFold` restricted to ASCII byte strings (the router
compares path segments; for ASCII, Unicode simple folding coincides
with ASCII lower-casing). -/
def equalFold (a b : List Nat) : Bool := a.map asciiLower == b.map asciiLower

/-- `Segment` (mux/segment.go lines 10-14). -/
structure Segment where
  Name : List Nat
  IsVariable : Bool
  IsWildcard : Bool
deriving DecidableEq, Repr

/-- `Segment.Match` (mux/segment.go lines 23-40): returns
(name, capture, wildcard, matches). -/
def Segment.Match (ps : Segment) (s : List Nat) : List Nat × Bool × Bool × Bool :=
  if ps.IsWildcard = true then ([], false, true, true)
  else if ps.IsVariable = true then (ps.Name, true, false, true)
  else if equalFold s ps.Name = true then ([], false, false, true)
  else ([], false, false, false)

/-- `strings.TrimPrefix(s, "/")`: remove one leading slash if present. -/
def trimPrefixSlash : List Nat → List Nat
  | 47 :: rest => rest
  | l => l

/-- `strings.TrimSuffix(s, "/")`: remove one trailing slash if present. -/
def trimSuffixSlash (l : List Nat) : List Nat :=
  if l.getLast? = some 47 then l.dropLast else l

/-- `strings.Split(s, "/")`: split on slashes; the empty string yields
one empty part, as in Go. -/
def splitOnSlash : List Nat → List (List Nat)
  | [] => [[]]
  | b :: rest =>
    if b = 47 then [] :: splitOnSlash rest
    else
      match splitOnSlash rest with
      | [] => [[b]]
      | h :: t => (b :: h) :: t

/-- The per-segment part of `NewRoute` (mux/route.go lines 21-32):
classify a pattern segment as wildcard, variable or literal. -/
def mkSegment (seg : List Nat) : Segment :=
  let isW := seg == [42]
  let isV := seg.head? == some 123 && seg.getLast? == some 125
  { Name := if isV = true then (seg.drop 1).dropLast else seg,
    IsVariable := isV,
    IsWildcard := isW }

/-- `Route` (mux/route.go lines 8-11). -/
structure Route where
  Pattern : List Nat
  Segments : List Segment
deriving DecidableEq, Repr

/-- `NewRoute` (mux/route.go lines 14-36): trim one trailing then one
leading slash, split on slashes, classify each segment. -/
def NewRoute (pattern : List Nat) : Route :=
  { Pattern := pattern,
    Segments := (splitOnSlash (trimPrefixSlash (trimSuffixSlash pattern))).map mkSegment }

/-- Loop of `Route.Match` (mux/route.go lines 39-69), walking the route
segments and the input segments right to left, so both lists arrive
reversed; when the input runs out the empty segment is used. `wildcard`
and `vars` are the loop variables; the captured variables are an
association list whose most recent binding is first, matching Go's map
assignment. -/
def matchLoop : List Segment → List (List Nat) → Bool →
    List (List Nat × List Nat) → List (List Nat × List Nat) × Bool
  | [], _, _, vars => (vars, true)
  | rs :: restR, inputs, wildcard, vars =>
    let inputSegment := inputs.headD []
    let m := rs.Match inputSegment
    let name := m.1
    let capture := m.2.1
    let wildcardMatch := m.2.2.1
    let doesMatch := m.2.2.2
    let wildcard1 := if doesMatch = true then wildcardMatch else wildcard
    let doesMatch1 := if wildcard1 = true then true else doesMatch
    if doesMatch1 = false then (vars, false)
    else
      matchLoop restR inputs.tail wildcard1
        (if capture = true then (name, inputSegment) :: vars else vars)

/-- `Route.Match` (mux/route.go lines 39-69). -/
def Route.Match (r : Route) (segments : List (List Nat)) :
    List (List Nat × List Nat) × Bool :=
  matchLoop r.Segments.reverse segments.reverse false []

/-- The path splitting of `Mux.ServeGemini` (mux/mux.go): trim one
trailing then one leading slash and split the request path on slashes. -/
def pathToSegments (path : List Nat) : List (List Nat) :=
  splitOnSlash (trimPrefixSlash (trimSuffixSlash path))

theorem matchLoop_all_match (rs : List Segment) (inputs : List (List Nat))
    (vars : List (List Nat × List Nat))
    (hlen : rs.length ≤ inputs.length)
    (h : ∀ p ∈ rs.zip inputs, p.1.IsWildcard = false ∧
        (p.1.IsVariable = true ∨ equalFold p.2 p.1.Name = true)) :
    (matchLoop rs inputs false vars).2 = true := by
  induction rs generalizing inputs vars with
  | nil => simp [matchLoop]
  | cons s ss ih =>
    cases inputs with
    | nil => simp at hlen
    | cons i is =>
      have hs := h (s, i) (by simp)
      have hs1 : s.IsWildcard = false := hs.1
      have hs2 : s.IsVariable = true ∨ equalFold i s.Name = true := hs.2
      have htail : ∀ p ∈ ss.zip is, p.1.IsWildcard = false ∧
          (p.1.IsVariable = true ∨ equalFold p.2 p.1.Name = true) := by
        intro p hp
        exact h p (by simp [hp])
      have hlen2 : ss.length ≤ is.length := by
        simp at hlen
        omega
      by_cases hv : s.IsVariable = true
      · have hstep : matchLoop (s :: ss) (i :: is) false vars
            = matchLoop ss is false ((s.Name, i) :: vars) := by
          simp [matchLoop, Segment.Match, hs1, hv]
        rw [hstep]
        exact ih is _ hlen2 htail
      · have hl : equalFold i s.Name = true := by
          rcases hs2 with h2 | h2
          · exact absurd h2 hv
          · exact h2
        have hstep : matchLoop (s :: ss) (i :: is) false vars
            = matchLoop ss is false vars := by
          simp [matchLoop, Segment.Match, hs1, hv, hl]
        rw [hstep]
        exact ih is _ hlen2 htail

/-- Claim C10 (confirmed): route matching is suffix matching. For a
pattern without wildcard segments and an input path with more segments
than the pattern, the route matches whenever the rightmost input
segments match the pattern segments pairwise (a variable matches
anything, a literal matches up to ASCII case); the extra leading input
segments are never examined. -/
theorem route_match_suffix (r : Route) (segments : List (List Nat))
    (hw : ∀ s ∈ r.Segments, s.IsWildcard = false)
    (hlen : r.Segments.length < segments.length)
    (h : ∀ p ∈ r.Segments.reverse.zip segments.reverse,
        p.1.IsVariable = true ∨ equalFold p.2 p.1.Name = true) :
    (r.Match segments).2 = true := by
  unfold Route.Match
  apply matchLoop_all_match
  · simp
    omega
  · intro p hp
    refine ⟨hw p.1 ?_, h p hp⟩
    have hmem := List.of_mem_zip hp
    exact (List.mem_reverse).1 hmem.1

/-- Witness for the C10 theorem: the pattern "/route/a" matches the
longer input path "/extra/route/a". -/
theorem route_match_suffix_witness :
    ((NewRoute (strBytes "/route/a")).Match
      (pathToSegments (strBytes "/extra/route/a"))).2 = true :=
  route_match_suffix (NewRoute (strBytes "/route/a"))
    (pathToSegments (strBytes "/extra/route/a"))
    (by decide) (by decide) (by decide)

/-- Claim C7 (corrected): the wildcard fallthrough of `Route.Match`.
A wildcard segment matches unconditionally and sets the fallthrough
flag; while the flag is set, a leftward segment that fails to match on
its own is deemed matched and the flag stays set; but a leftward
segment that does match on its own (variable, or literal equal up to
ASCII case) CLEARS the flag, after which matching continues normally —
so the remaining leftward segments are not all unconditionally deemed
matched, contrary to the claim as stated (see the counterexample). -/
theorem route_match_wildcard_fallthrough :
    (∀ (s : Segment) (rest : List Segment) (inputs : List (List Nat))
        (w : Bool) (vars : List (List Nat × List Nat)),
      s.IsWildcard = true →
      matchLoop (s :: rest) inputs w vars = matchLoop rest inputs.tail true vars) ∧
    (∀ (s : Segment) (rest : List Segment) (inputs : List (List Nat))
        (vars : List (List Nat × List Nat)),
      s.IsWildcard = false → s.IsVariable = false →
      equalFold (inputs.headD []) s.Name = false →
      matchLoop (s :: rest) inputs true vars = matchLoop rest inputs.tail true vars) ∧
    (∀ (s : Segment) (rest : List Segment) (inputs : List (List Nat))
        (w : Bool) (vars : List (List Nat × List Nat)),
      s.IsWildcard = false → s.IsVariable = false →
      equalFold (inputs.headD []) s.Name = true →
      matchLoop (s :: rest) inputs w vars = matchLoop rest inputs.tail false vars) ∧
    (∀ (s : Segment) (rest : List Segment) (inputs : List (List Nat))
        (w : Bool) (vars : List (List Nat × List Nat)),
      s.IsWildcard = false → s.IsVariable = true →
      matchLoop (s :: rest) inputs w vars
        = matchLoop rest inputs.tail false ((s.Name, inputs.headD []) :: vars)) ∧
    (∀ (s : Segment) (rest : List Segment) (inputs : List (List Nat))
        (vars : List (List Nat × List Nat)),
      s.IsWildcard = false → s.IsVariable = false →
      equalFold (inputs.headD []) s.Name = false →
      matchLoop (s :: rest) inputs false vars = (vars, false)) := by
  refine ⟨?_, ?_, ?_, ?_, ?_⟩
  · intro s rest inputs w vars hw
    simp [matchLoop, Segment.Match, hw]
  · intro s rest inputs vars hw hv he
    cases inputs with
    | nil =>
      simp only [List.headD_nil] at he
      simp [matchLoop, Segment.Match, hw, hv, he]
    | cons i is =>
      simp only [List.headD_cons] at he
      simp [matchLoop, Segment.Match, hw, hv, he]
  · intro s rest inputs w vars hw hv he
    cases inputs with
    | nil =>
      simp only [List.headD_nil] at he
      simp [matchLoop, Segment.Match, hw, hv, he]
    | cons i is =>
      simp only [List.headD_cons] at he
      simp [matchLoop, Segment.Match, hw, hv, he]
  · intro s rest inputs w vars hw hv
    cases inputs with
    | nil => simp [matchLoop, Segment.Match, hw, hv]
    | cons i is => simp [matchLoop, Segment.Match, hw, hv]
  · intro s rest inputs vars hw hv he
    cases inputs with
    | nil =>
      simp only [List.headD_nil] at he
      simp [matchLoop, Segment.Match, hw, hv, he]
    | cons i is =>
      simp only [List.headD_cons] at he
      simp [matchLoop, Segment.Match, hw, hv, he]

/-- Witness for the corrected C7 theorem, exercising each clause on
concrete segments: a wildcard sets the flag; a non-matching literal is
skipped while the flag is set; a matching literal clears the flag; a
variable clears the flag and captures; without the flag a non-matching
literal fails. -/
theorem route_match_wildcard_fallthrough_witness :
    matchLoop [{ Name := [], IsVariable := false, IsWildcard := true }] [[120]] false []
      = matchLoop [] [] true [] ∧
    matchLoop [{ Name := [97], IsVariable := false, IsWildcard := false }] [[120]] true []
      = matchLoop [] [] true [] ∧
    matchLoop [{ Name := [97], IsVariable := false, IsWildcard := false }] [[97]] true []
      = matchLoop [] [] false [] ∧
    matchLoop [{ Name := [118], IsVariable := true, IsWildcard := false }] [[120]] true []
      = matchLoop [] [] false [([118], [120])] ∧
    matchLoop [{ Name := [97], IsVariable := false, IsWildcard := false }] [[120]] false []
      = ([], false) :=
  ⟨route_match_wildcard_fallthrough.1 _ [] [[120]] false [] (by decide),
   route_match_wildcard_fallthrough.2.1 _ [] [[120]] [] (by decide) (by decide) (by decide),
   route_match_wildcard_fallthrough.2.2.1 _ [] [[97]] true [] (by decide) (by decide)
     (by decide),
   route_match_wildcard_fallthrough.2.2.2.1 _ [] [[120]] true [] (by decide) (by decide),
   route_match_wildcard_fallthrough.2.2.2.2 _ [] [[120]] [] (by decide) (by decide)
     (by decide)⟩

/-- Counterexample to claim C7 as stated: the pattern "/a/b/*" contains
a wildcard as its rightmost segment, so under the claim every input
would match; but the input path "/q/b/z" does not match, because the
genuine match of the middle literal "b" clears the fallthrough flag and
the leftmost literal "a" then fails against "q". -/
theorem route_match_wildcard_counterexample :
    (NewRoute (strBytes "/a/b/*")).Segments.map Segment.IsWildcard = [false, false, true] ∧
    ((NewRoute (strBytes "/a/b/*")).Match (pathToSegments (strBytes "/q/b/z"))).2 = false := by
  decide

/-- The base64 standard alphabet, as bytes. -/
def base64Alphabet : List Nat :=
  strBytes "ABCDEFGHIJKLMNOPQRSTUVWXYZabcdefghijklmnopqrstuvwxyz0123456789+/"

/-- `base64.StdEncoding.EncodeToString`: standard base64 with '=' (byte
61) padding, producing the encoded bytes. -/
def base64Encode : List Nat → List Nat
  | [] => []
  | [b1] => [base64Alphabet.getD (b1 / 4) 0, base64Alphabet.getD (b1 % 4 * 16) 0, 61, 61]
  | [b1, b2] => [base64Alphabet.getD (b1 / 4) 0,
      base64Alphabet.getD (b1 % 4 * 16 + b2 / 16) 0,
      base64Alphabet.getD (b2 % 16 * 4) 0, 61]
  | b1 :: b2 :: b3 :: rest =>
      base64Alphabet.getD (b1 / 4) 0 :: base64Alphabet.getD (b1 % 4 * 16 + b2 / 16) 0 ::
      base64Alphabet.getD (b2 % 16 * 4 + b3 / 64) 0 :: base64Alphabet.getD (b3 % 64) 0 ::
      base64Encode rest

theorem base64Encode_length : ∀ l : List Nat,
    (base64Encode l).length = (l.length + 2) / 3 * 4
  | [] => by simp [base64Encode]
  | [_] => by simp [base64Encode]
  | [_, _] => by simp [base64Encode]
  | _ :: _ :: _ :: rest => by
    simp [base64Encode, base64Encode_length rest]
    omega

/-- Server-side fingerprint (server.go lines 224-236, `handleTLS`):
`Certificate.ID = base64(sha256.Sum256(cert.Raw))`. `sha256Sum` stands
for the SHA-256 digest function of the Go standard library. -/
def certificateID (sha256Sum : List Nat → List Nat) (raw : List Nat) : List Nat :=
  base64Encode (sha256Sum raw)

/-- Go's `hash.Hash.Sum(b)` appends the digest of the data written so
far to `b`. `sha256.New().Sum(raw)` therefore yields `raw` followed by
the SHA-256 digest of the empty message — it does not hash `raw`. -/
def goHashSum (digest : List Nat) (b : List Nat) : List Nat := b ++ digest

/-- Client-side observed-certificate fingerprint (`Client.RequestURL`):
`base64.StdEncoding.EncodeToString(sha256.New().Sum(cert.Raw))`. -/
def clientObservedFingerprint (sha256Sum : List Nat → List Nat) (raw : List Nat) : List Nat :=
  base64Encode (goHashSum (sha256Sum []) raw)

/-- Claim C9 (code bug, client side): for any 32-byte digest function —
SHA-256 in particular — the server-side `Certificate.ID` is the base64
of the digest of the raw DER bytes, as the claim states, but the
client-side observed-certificate entry is the base64 of the raw DER
bytes followed by the digest of the empty message, which differs from
the claimed fingerprint for every certificate of at least two bytes
(already by length: 4*ceil((n+32)/3) vs 44 characters). -/
theorem client_fingerprint_mismatch (sha256Sum : List Nat → List Nat) (raw : List Nat)
    (hsha : ∀ l, (sha256Sum l).length = 32) (hraw : 2 ≤ raw.length) :
    certificateID sha256Sum raw = base64Encode (sha256Sum raw) ∧
    clientObservedFingerprint sha256Sum raw ≠ base64Encode (sha256Sum raw) := by
  refine ⟨rfl, ?_⟩
  intro h
  have h1 := congrArg List.length h
  rw [show clientObservedFingerprint sha256Sum raw
      = base64Encode (raw ++ sha256Sum []) from rfl] at h1
  rw [base64Encode_length, base64Encode_length] at h1
  simp [hsha] at h1
  omega

/-- Witness for the C9 theorem at a concrete digest function and a
concrete two-byte certificate. -/
theorem client_fingerprint_mismatch_witness :
    certificateID (fun _ => List.replicate 32 0) [1, 2]
      = base64Encode ((fun _ => List.replicate 32 0) [1, 2]) ∧
    clientObservedFingerprint (fun _ => List.replicate 32 0) [1, 2]
      ≠ base64Encode ((fun _ => List.replicate 32 0) [1, 2]) :=
  client_fingerprint_mismatch (fun _ => List.replicate 32 0) [1, 2]
    (fun l => by simp) (by decide)

end Gemini
